import Mathlib

/-!
Shallow embedding of `pkg/config/config.go` of the gardenctl-v2 repository.

The Go file defines the gardenctl configuration (`Config`, `Garden`), lookup
of a garden by name or alias (`GardenName`), pattern matching of a target
string against configured regular expressions (`MatchPattern`), adding a
garden with metadata coming from an external config map (`AddGarden`), and
loading/saving the configuration (`LoadFromFile`, `SaveToFile`).

Modelling decisions, stated once here:

* Go errors (`fmt.Errorf`, `errors.New`) become the structured `ConfigError`
  inductive, each constructor carrying the same identifying data the Go error
  message interpolates (the unresolved token, the offending pattern, the
  duplicate name).
* The Go regexp library is not part of this repository; `MatchPattern` is
  therefore parametrised by a compile function `String → Except String Regexp`,
  where a `Regexp` is the interface the Go code consumes: `SubexpNames` and
  `FindStringSubmatch`.  Concrete claims are instantiated with `goCompile`,
  a model of Go's regexp behaviour on the specific pattern strings that the
  claims mention.
* `clusterConfig.Data` (a Go `map[string]string`; absent keys read as `""`)
  becomes an association list with the lookup `dataGet`.
* File IO is modelled away: `SaveToFile` always succeeds, so `AddGarden`
  returns the updated configuration; `LoadFromFile` takes the already-read
  byte stream as a `String` and is parametrised by the YAML decoder and the
  home-directory expansion, both external collaborators.
* `strings.Split(s, "\n")` becomes `splitOnChar (Char.ofNat 10) s`, a
  structurally recursive split (Go's Split with a one-character separator:
  the empty string splits to `[""]`, separators at the end produce trailing
  empty elements).
-/

namespace GardenctlConfig

/-- Garden represents one garden cluster (struct `Garden` in config.go). -/
structure Garden where
  Name : String
  Identity : String
  Context : String
  Kubeconfig : String
  Aliases : List String
  deriving Repr, DecidableEq

/-- Config holds the gardenctl configuration (struct `Config` in config.go). -/
structure Config where
  Gardens : List Garden
  MatchPatterns : List String
  deriving Repr, DecidableEq

/-- PatternMatch holds target values extracted from a provided string
(struct `PatternMatch` in config.go).  Go zero value: all fields `""`. -/
structure PatternMatch where
  Garden : String := ""
  Project : String := ""
  Namespace : String := ""
  Shoot : String := ""
  deriving Repr, DecidableEq

/-- Structured rendering of the error values config.go produces. -/
inductive ConfigError where
  | notFound (nameOrAlias : String)
  | patternCompile (pattern : String)
  | noMatch
  | duplicateName (name : String)
  | decodeFailed (msg : String)
  | pathResolutionFailed (msg : String)
  deriving Repr, DecidableEq

/-- Helper `contains` of config.go: linear scan for an equal string. -/
def contains (values : List String) (value : String) : Bool :=
  values.any (fun v => v == value)

/-- Method `GardenName` of config.go: one scan over `Gardens`; for each entry
the name is compared first, then the aliases; the first entry matching either
way determines the result. -/
def GardenName (gardens : List Garden) (nameOrAlias : String) : Except ConfigError String :=
  match gardens with
  | [] => .error (.notFound nameOrAlias)
  | g :: rest =>
    if g.Name = nameOrAlias then .ok g.Name
    else if contains g.Aliases nameOrAlias then .ok g.Name
    else GardenName rest nameOrAlias

/-- Follows the spec text of `ResolveName`, NOT the source: a first pass
returning the first entry whose name equals the input, and only if that pass
finds nothing, a second pass over the aliases.  Kept for comparison with
`GardenName`. -/
def ResolveNameSpec (gardens : List Garden) (nameOrAlias : String) : Except ConfigError String :=
  match gardens.find? (fun g => g.Name == nameOrAlias) with
  | some g => .ok g.Name
  | none =>
    match gardens.find? (fun g => contains g.Aliases nameOrAlias) with
    | some g => .ok g.Name
    | none => .error (.notFound nameOrAlias)

/-- Structural split of a string at every occurrence of one character; models
Go `strings.Split(s, sep)` for a one-character separator (config.go always
splits on a newline). -/
def splitOnCharAux (sep : Char) : List Char → List Char → List String
  | [], acc => [String.mk acc.reverse]
  | c :: cs, acc =>
    if c = sep then String.mk acc.reverse :: splitOnCharAux sep cs []
    else splitOnCharAux sep cs (c :: acc)

/-- Split a string at every occurrence of `sep` (Go `strings.Split` with a
single-character separator: always at least one element, `"" ↦ [""]`). -/
def splitOnChar (sep : Char) (s : String) : List String :=
  splitOnCharAux sep s.data []

/-- Newline character, the separator config.go always splits on. -/
def newline : Char := Char.ofNat 10

/-- Helper `removeLastStrIfEmpty` of config.go: drop a single trailing empty
element (produced by a trailing newline before the split). -/
def removeLastStrIfEmpty (strSlice : List String) : List String :=
  if strSlice.getLast? = some "" then strSlice.dropLast else strSlice

/-- Helper `removeDuplicateStr` of config.go: deduplicate keeping the first
occurrence of each string (the Go code keeps a set of already-seen keys and
appends an item only when unseen). -/
def removeDuplicateStr (strSlice : List String) : List String :=
  strSlice.foldl (fun list item => if list.contains item then list else list ++ [item]) []

/-- Lookup in the external metadata map (`clusterConfig.Data`); a missing key
reads as the empty string, as a Go map access does. -/
def dataGet (data : List (String × String)) (key : String) : String :=
  match data.find? (fun kv => kv.1 == key) with
  | some kv => kv.2
  | none => ""

/-- Method `AddGarden` of config.go.  Rejects a duplicate name before any
mutation; otherwise parses `Data["aliases"]` (newline-separated, a single
trailing empty dropped), reads `Data["identity"]`, appends the new `Garden`,
then merges `Data["global.matchPatterns"]` (parsed the same way) into
`MatchPatterns` and deduplicates the combined list.  `SaveToFile` is modelled
as always succeeding, so the updated configuration is returned;
`configFilename` is carried only to mirror the Go signature. -/
def AddGarden (config : Config) (name : String) (kubeconfigFile : String)
    (contextName : String) (data : List (String × String)) (configFilename : String) :
    Except ConfigError Config :=
  if config.Gardens.any (fun g => g.Name == name) then
    .error (.duplicateName name)
  else
    let _ := configFilename
    let aliases := removeLastStrIfEmpty (splitOnChar newline (dataGet data "aliases"))
    let identity := dataGet data "identity"
    let garden : Garden :=
      { Name := name, Identity := identity, Context := contextName,
        Kubeconfig := kubeconfigFile, Aliases := aliases }
    let gardens := config.Gardens ++ [garden]
    let matchPatterns := removeLastStrIfEmpty (splitOnChar newline (dataGet data "global.matchPatterns"))
    let merged := removeDuplicateStr (config.MatchPatterns ++ matchPatterns)
    .ok { Gardens := gardens, MatchPatterns := merged }

/-- Expansion of the home-directory shorthand in every garden's kubeconfig
path, in list order, aborting on the first failure (the loop in
`LoadFromFile`); the expansion itself is the external `homedir.Expand`. -/
def expandKubeconfigs (expand : String → Except String String) :
    List Garden → Except ConfigError (List Garden)
  | [] => .ok []
  | g :: gs =>
    match expand g.Kubeconfig with
    | .error e => .error (.pathResolutionFailed e)
    | .ok expanded =>
      match expandKubeconfigs expand gs with
      | .error e => .error e
      | .ok rest => .ok ({ g with Kubeconfig := expanded } :: rest)

/-- Function `LoadFromFile` of config.go, with the file already read into
`source` and the YAML decoder and home-directory expansion passed in as the
external collaborators they are.  The Go code starts from the zero `Config`
and decodes and expands only when the file size is positive. -/
def LoadFromFile (decode : String → Except String Config)
    (expand : String → Except String String) (source : String) :
    Except ConfigError Config :=
  let config : Config := { Gardens := [], MatchPatterns := [] }
  if 0 < source.length then
    match decode source with
    | .error e => .error (.decodeFailed e)
    | .ok decoded =>
      match expandKubeconfigs expand decoded.Gardens with
      | .error e => .error e
      | .ok gardens => .ok { decoded with Gardens := gardens }
  else .ok config

/-- The interface of the Go regexp library that `MatchPattern` consumes:
`SubexpNames` (index 0 is always the unnamed whole match) and
`FindStringSubmatch` (`none` models the nil slice of a failed match; on
success the list is as long as `SubexpNames`, a group that did not
participate contributing `""`). -/
structure Regexp where
  subexpNames : List String
  findStringSubmatch : String → Option (List String)

/-- The body of the `switch PatternKey(name)` statement inside
`MatchPattern`: the four recognised group names set the corresponding field,
every other name (the unnamed `""` included) falls through. -/
def applyPatternKey (tm : PatternMatch) (name : String) (captured : String) : PatternMatch :=
  if name = "garden" then { tm with Garden := captured }
  else if name = "project" then { tm with Project := captured }
  else if name = "namespace" then { tm with Namespace := captured }
  else if name = "shoot" then { tm with Shoot := captured }
  else tm

/-- The extraction loop of `MatchPattern` (`for i, name := range names`),
starting from the zero `PatternMatch`.  Go guarantees that the slice returned
by `FindStringSubmatch` has the same length as `SubexpNames`, so pairing the
two lists loses nothing. -/
def buildPatternMatch (names : List String) (ms : List String) : PatternMatch :=
  (names.zip ms).foldl (fun tm nm => applyPatternKey tm nm.1 nm.2) {}

/-- The pattern loop of `MatchPattern`: compile each pattern in list order
(a compile failure aborts the whole call), try it against `value`, skip to
the next pattern on a nil match, and return the extracted `PatternMatch` of
the first pattern that matches; an exhausted list is a no-match error. -/
def matchPatternLoop (compile : String → Except String Regexp) (value : String) :
    List String → Except ConfigError PatternMatch
  | [] => .error .noMatch
  | p :: rest =>
    match compile p with
    | .error _ => .error (.patternCompile p)
    | .ok r =>
      match r.findStringSubmatch value with
      | none => matchPatternLoop compile value rest
      | some ms => .ok (buildPatternMatch r.subexpNames ms)

/-- Method `MatchPattern` of config.go, parametrised by the regexp compiler
(the external Go regexp library). -/
def MatchPattern (compile : String → Except String Regexp) (config : Config)
    (value : String) : Except ConfigError PatternMatch :=
  matchPatternLoop compile value config.MatchPatterns

/-- True when every character of `s` is a lowercase ASCII letter and `s` is
nonempty: exactly the strings the regex fragment `[a-z]+` accepts. -/
def isLowerWord (s : String) : Bool :=
  !s.data.isEmpty && s.data.all (fun c => Char.ofNat 97 ≤ c && c ≤ Char.ofNat 122)

/-- Behaviour of Go's compiled regexp for `"^(?P<garden>[a-z]+)$"`: one named
group, matching exactly a nonempty all-lowercase input. -/
def gardenRe : Regexp :=
  { subexpNames := ["", "garden"],
    findStringSubmatch := fun v => if isLowerWord v then some [v, v] else none }

/-- Behaviour of Go's compiled regexp for
`"^(?P<garden>[a-z]+)/(?P<project>[a-z]+)$"`: two named groups separated by a
slash (a lowercase word contains no slash, so the input must consist of
exactly two nonempty lowercase words around one slash). -/
def gardenProjectRe : Regexp :=
  { subexpNames := ["", "garden", "project"],
    findStringSubmatch := fun v =>
      match splitOnChar (Char.ofNat 47) v with
      | [g, pj] => if isLowerWord g && isLowerWord pj then some [v, g, pj] else none
      | _ => none }

/-- Behaviour of Go's compiled regexp for `"^([a-z]+)$"`: one unnamed group
(`SubexpNames` lists `""` for it), matching a nonempty all-lowercase input. -/
def unnamedWordRe : Regexp :=
  { subexpNames := ["", ""],
    findStringSubmatch := fun v => if isLowerWord v then some [v, v] else none }

/-- Model of Go `regexp.Compile` restricted to the concrete pattern strings
the claims mention; every other string is outside the model and reported as
such.  For each supported pattern the produced `Regexp` returns exactly what
Go returns: `SubexpNames` lists `""` for the whole match and for unnamed
groups, and `FindStringSubmatch` yields the whole match followed by one entry
per group.  All supported patterns are anchored (`^...$`), so a match is a
match of the whole input; the lone `"("` is Go's canonical malformed
pattern. -/
def goCompile (p : String) : Except String Regexp :=
  if p = "^(?P<garden>[a-z]+)$" then .ok gardenRe
  else if p = "^(?P<garden>[a-z]+)/(?P<project>[a-z]+)$" then .ok gardenProjectRe
  else if p = "^([a-z]+)$" then .ok unnamedWordRe
  else if p = "(" then .error "error parsing regexp: missing closing ): `(`"
  else .error "pattern outside the modelled fragment"

/-- The four recognised pattern keys (`PatternKeyGarden`, `PatternKeyProject`,
`PatternKeyNamespace`, `PatternKeyShoot` in config.go). -/
def patternKeys : List String := ["garden", "project", "namespace", "shoot"]

/-- Projection of the `PatternMatch` field that a recognised pattern key
populates (an unrecognised key reads as the empty string). -/
def getField (tm : PatternMatch) : String → String
  | "garden" => tm.Garden
  | "project" => tm.Project
  | "namespace" => tm.Namespace
  | "shoot" => tm.Shoot
  | _ => ""

/-- The extraction fold of `MatchPattern` started from an arbitrary value,
for reasoning about `buildPatternMatch` by induction
(`buildPatternMatch names ms = buildPatternFold ⟨"", "", "", ""⟩ (names.zip ms)`
holds by definition). -/
def buildPatternFold (tm : PatternMatch) (pairs : List (String × String)) : PatternMatch :=
  pairs.foldl (fun a nm => applyPatternKey a nm.1 nm.2) tm

/-- Two successive `AddGarden` calls whose external metadata both contribute
`"p1\np2"` to `global.matchPatterns`, starting from the empty
configuration. -/
def c6TwoCalls : Except ConfigError Config :=
  (AddGarden ⟨[], []⟩ "g1" "kc" "ctx" [("global.matchPatterns", "p1\np2")] "cfg").bind
    (fun c1 => AddGarden c1 "g2" "kc" "ctx" [("global.matchPatterns", "p1\np2")] "cfg")

/-! ## Theorems -/

/-- C1: counterexample.  With a first garden `"a"` whose aliases contain
`"main"` and a second garden named `"main"`, the code returns `"a"` (the
earlier entry's alias match wins), while the claimed two-pass resolution
would return `"main"`; so a name match is NOT preferred regardless of
document position. -/
theorem c1_counterexample :
    GardenName [⟨"a", "", "", "", ["main"]⟩, ⟨"main", "", "", "", []⟩] "main" = Except.ok "a"
      ∧ ResolveNameSpec [⟨"a", "", "", "", ["main"]⟩, ⟨"main", "", "", "", []⟩] "main"
          = Except.ok "main"
      ∧ (Except.ok "a" : Except ConfigError String) ≠ Except.ok "main" :=
  ⟨rfl, rfl, fun h => absurd (Except.ok.inj h) (by decide)⟩

/-- C1 (amended): `GardenName` performs one scan in document order and
returns the name of the first entry that matches the input by name or by one
of its aliases; the entry found is exactly the first entry matching either
way, so an earlier entry's alias match wins over a later entry's name
match. -/
theorem c1_gardenName_first_matching_entry (gardens : List Garden) (nameOrAlias : String) :
    GardenName gardens nameOrAlias =
      (match gardens.find? (fun g => g.Name == nameOrAlias || contains g.Aliases nameOrAlias) with
       | some g => Except.ok g.Name
       | none => Except.error (ConfigError.notFound nameOrAlias)) := by
  induction gardens with
  | nil => rfl
  | cons g rest ih =>
    cases hb : (g.Name == nameOrAlias) with
    | true =>
      have h1 : g.Name = nameOrAlias := by simpa using hb
      simp [GardenName, h1, List.find?_cons, hb]
    | false =>
      have h1 : ¬ g.Name = nameOrAlias := by simpa using hb
      cases hc : contains g.Aliases nameOrAlias with
      | true => simp [GardenName, h1, hc, List.find?_cons, hb]
      | false => simp [GardenName, h1, hc, List.find?_cons, hb, ih]

/-- C2: counterexample.  External metadata listing the alias `"x"` twice
(`"x\nx"`) produces a garden whose aliases are `["x", "x"]`: the same string
twice, so `AddGarden` does not deduplicate the aliases list. -/
theorem c2_counterexample :
    AddGarden ⟨[], []⟩ "g" "kc" "ctx" [("aliases", "x\nx")] "cfg"
        = Except.ok ⟨[⟨"g", "", "ctx", "kc", ["x", "x"]⟩], []⟩
      ∧ (["x", "x"] : List String).count "x" = 2 :=
  ⟨rfl, by decide⟩

/-- C2 (amended): the new entry's aliases are exactly the newline-split of
`externalMetadata["aliases"]` with a single trailing empty element removed,
with NO deduplication: every string occurs in the aliases exactly as often as
in the parsed metadata, so duplicates in the metadata are preserved. -/
theorem c2_addGarden_aliases_verbatim (config : Config)
    (name kubeconfigFile contextName configFilename : String)
    (data : List (String × String)) (out : Config)
    (h : AddGarden config name kubeconfigFile contextName data configFilename = Except.ok out) :
    ∃ g, out.Gardens.getLast? = some g
      ∧ g.Aliases = removeLastStrIfEmpty (splitOnChar newline (dataGet data "aliases"))
      ∧ ∀ s : String, g.Aliases.count s
          = (removeLastStrIfEmpty (splitOnChar newline (dataGet data "aliases"))).count s := by
  unfold AddGarden at h
  by_cases hd : config.Gardens.any (fun g => g.Name == name) = true
  · rw [if_pos hd] at h
    exact absurd h (by simp)
  · rw [if_neg hd] at h
    obtain rfl : _ = out := Except.ok.inj h
    refine ⟨⟨name, dataGet data "identity", contextName, kubeconfigFile,
      removeLastStrIfEmpty (splitOnChar newline (dataGet data "aliases"))⟩, ?_, rfl, fun s => rfl⟩
    exact List.getLast?_concat _

/-- C5: `AddGarden` with a name already present among the current gardens
fails with the duplicate-name error; the guard fires before any state is
built, so the returned value carries no mutated configuration and nothing is
persisted. -/
theorem c5_addGarden_duplicate_rejected (config : Config)
    (name kubeconfigFile contextName configFilename : String)
    (data : List (String × String)) (g : Garden)
    (hg : g ∈ config.Gardens) (hn : g.Name = name) :
    AddGarden config name kubeconfigFile contextName data configFilename
      = Except.error (ConfigError.duplicateName name) := by
  unfold AddGarden
  rw [if_pos]
  rw [List.any_eq_true]
  exact ⟨g, hg, by simp [hn]⟩

/-- C5 witness: a concrete configuration already containing a garden named
`"x"` rejects a second `AddGarden "x"`. -/
theorem c5_witness :
    AddGarden ⟨[⟨"x", "", "", "", []⟩], []⟩ "x" "kc" "ctx" [] "cfg"
      = Except.error (ConfigError.duplicateName "x") :=
  c5_addGarden_duplicate_rejected ⟨[⟨"x", "", "", "", []⟩], []⟩ "x" "kc" "ctx" "cfg" []
    ⟨"x", "", "", "", []⟩ (by simp) rfl

/-- C2 witness: the amended aliases statement at the concrete metadata
`"x\nx"`, where the resulting aliases are `["x", "x"]`. -/
theorem c2_witness :
    ∃ g, (⟨[⟨"g", "", "ctx", "kc", ["x", "x"]⟩], []⟩ : Config).Gardens.getLast? = some g
      ∧ g.Aliases = removeLastStrIfEmpty (splitOnChar newline (dataGet [("aliases", "x\nx")] "aliases"))
      ∧ ∀ s : String, g.Aliases.count s
          = (removeLastStrIfEmpty (splitOnChar newline (dataGet [("aliases", "x\nx")] "aliases"))).count s :=
  c2_addGarden_aliases_verbatim ⟨[], []⟩ "g" "kc" "ctx" "cfg" [("aliases", "x\nx")]
    ⟨[⟨"g", "", "ctx", "kc", ["x", "x"]⟩], []⟩ rfl

/-- C9: loading from a zero-length source succeeds with the zero-value
configuration (no gardens, no match patterns); the statement holds for every
decoder and every home-directory expansion, so neither step is applied to an
empty source. -/
theorem c9_load_empty_source (decode : String → Except String Config)
    (expand : String → Except String String) :
    LoadFromFile decode expand "" = Except.ok ⟨[], []⟩ := rfl

/-! ### Helper lemmas about the extraction fold and the dedup fold -/

/-- A name that is none of the four recognised keys falls through the switch
and leaves the `PatternMatch` unchanged. -/
theorem applyPatternKey_not_recognized (tm : PatternMatch) (n captured : String)
    (h : ¬ n ∈ patternKeys) : applyPatternKey tm n captured = tm := by
  simp only [patternKeys, List.mem_cons, List.mem_singleton, not_or] at h
  obtain ⟨h1, h2, h3, h4⟩ := h
  simp [applyPatternKey, h1, h2, h3, h4]

/-- Setting the field of one name leaves the field of a different recognised
key unchanged. -/
theorem getField_applyPatternKey_ne (tm : PatternMatch) (n captured k : String)
    (hk : k ∈ patternKeys) (hne : n ≠ k) :
    getField (applyPatternKey tm n captured) k = getField tm k := by
  simp [patternKeys] at hk
  rcases hk with rfl | rfl | rfl | rfl <;>
    · simp only [applyPatternKey, getField]
      split_ifs <;> simp_all [getField]

/-- Setting the field of a recognised key stores the captured text. -/
theorem getField_applyPatternKey_self (tm : PatternMatch) (captured k : String)
    (hk : k ∈ patternKeys) :
    getField (applyPatternKey tm k captured) k = captured := by
  simp [patternKeys] at hk
  rcases hk with rfl | rfl | rfl | rfl <;> rfl

/-- The zero `PatternMatch` reads `""` at every key. -/
theorem getField_default (k : String) (hk : k ∈ patternKeys) :
    getField ⟨"", "", "", ""⟩ k = "" := by
  simp [patternKeys] at hk
  rcases hk with rfl | rfl | rfl | rfl <;> rfl

/-- When no pair carries the key `k`, the fold leaves the field of `k`
alone. -/
theorem getField_buildPatternFold_of_filter_nil (pairs : List (String × String))
    (tm : PatternMatch) (k : String) (hk : k ∈ patternKeys)
    (h : pairs.filter (fun nm => nm.1 == k) = []) :
    getField (buildPatternFold tm pairs) k = getField tm k := by
  induction pairs generalizing tm with
  | nil => rfl
  | cons nm rest ih =>
    rw [List.filter_cons] at h
    by_cases hb : (nm.1 == k) = true
    · rw [if_pos hb] at h
      exact absurd h (by simp)
    · rw [if_neg hb] at h
      have hne : nm.1 ≠ k := by simpa using hb
      have step : buildPatternFold tm (nm :: rest)
          = buildPatternFold (applyPatternKey tm nm.1 nm.2) rest := rfl
      rw [step, ih _ h]
      exact getField_applyPatternKey_ne tm nm.1 nm.2 k hk hne

/-- When exactly one pair carries the key `k`, the fold stores that pair's
captured text in the field of `k`. -/
theorem getField_buildPatternFold_of_filter_singleton (pairs : List (String × String))
    (tm : PatternMatch) (k captured : String) (hk : k ∈ patternKeys)
    (h : pairs.filter (fun nm => nm.1 == k) = [(k, captured)]) :
    getField (buildPatternFold tm pairs) k = captured := by
  induction pairs generalizing tm with
  | nil => exact absurd h (by simp)
  | cons nm rest ih =>
    rw [List.filter_cons] at h
    have step : buildPatternFold tm (nm :: rest)
        = buildPatternFold (applyPatternKey tm nm.1 nm.2) rest := rfl
    by_cases hb : (nm.1 == k) = true
    · rw [if_pos hb] at h
      injection h with h1 h2
      subst h1
      rw [step, getField_buildPatternFold_of_filter_nil rest _ k hk h2]
      exact getField_applyPatternKey_self tm _ k hk
    · rw [if_neg hb] at h
      rw [step]
      exact ih _ h

/-- The extraction fold depends only on the pairs whose name is one of the
recognised keys: all other pairs (unnamed and unrecognised groups) are
ignored. -/
theorem buildPatternFold_filter_recognized (pairs : List (String × String))
    (tm : PatternMatch) :
    buildPatternFold tm pairs
      = buildPatternFold tm (pairs.filter (fun nm => patternKeys.contains nm.1)) := by
  induction pairs generalizing tm with
  | nil => rfl
  | cons nm rest ih =>
    rw [List.filter_cons]
    have step : buildPatternFold tm (nm :: rest)
        = buildPatternFold (applyPatternKey tm nm.1 nm.2) rest := rfl
    by_cases hb : (patternKeys.contains nm.1) = true
    · rw [if_pos hb, step]
      have step2 : buildPatternFold tm (nm :: List.filter (fun nm => patternKeys.contains nm.1) rest)
          = buildPatternFold (applyPatternKey tm nm.1 nm.2)
              (List.filter (fun nm => patternKeys.contains nm.1) rest) := rfl
      rw [step2]
      exact ih _
    · rw [if_neg hb, step]
      have : ¬ nm.1 ∈ patternKeys := by simpa using hb
      rw [applyPatternKey_not_recognized tm nm.1 nm.2 this]
      exact ih _

/-- A match whose pattern has no recognised named group extracts the zero
`PatternMatch`. -/
theorem buildPatternMatch_all_empty (names ms : List String)
    (h : ∀ n ∈ names, ¬ n ∈ patternKeys) :
    buildPatternMatch names ms = ⟨"", "", "", ""⟩ := by
  have hf : (names.zip ms).filter (fun nm => patternKeys.contains nm.1) = [] := by
    rw [List.filter_eq_nil_iff]
    intro nm hnm
    have hmem := (List.of_mem_zip hnm).1
    simpa using h nm.1 hmem
  have heq : buildPatternMatch names ms = buildPatternFold ⟨"", "", "", ""⟩ (names.zip ms) := rfl
  rw [heq, buildPatternFold_filter_recognized, hf]
  rfl

/-- Patterns that compile but do not match are skipped: the loop continues
with the remaining patterns. -/
theorem matchPatternLoop_append_of_no_match (compile : String → Except String Regexp)
    (value : String) (ps₁ rest : List String)
    (h : ∀ q ∈ ps₁, ∃ rq, compile q = Except.ok rq ∧ rq.findStringSubmatch value = none) :
    matchPatternLoop compile value (ps₁ ++ rest) = matchPatternLoop compile value rest := by
  induction ps₁ with
  | nil => rfl
  | cons q qs ih =>
    obtain ⟨rq, hc, hn⟩ := h q (by simp)
    show matchPatternLoop compile value (q :: (qs ++ rest)) = _
    simp only [matchPatternLoop, hc, hn]
    exact ih (fun q hq => h q (by simp [hq]))

/-- The dedup fold keeps its accumulator duplicate-free. -/
theorem dedupFoldl_nodup (l : List String) :
    ∀ acc : List String, acc.Nodup →
      (l.foldl (fun list item => if list.contains item then list else list ++ [item]) acc).Nodup := by
  induction l with
  | nil => intro acc h; exact h
  | cons x xs ih =>
    intro acc h
    simp only [List.foldl_cons]
    by_cases hc : acc.contains x = true
    · rw [if_pos hc]
      exact ih acc h
    · rw [if_neg hc]
      refine ih _ ?_
      rw [List.nodup_append]
      refine ⟨h, List.nodup_singleton x, ?_⟩
      intro a ha hax
      rw [List.mem_singleton] at hax
      subst hax
      exact absurd ha (by simpa using hc)

/-- The dedup fold only ever appends elements of its input in input order:
the result extends the accumulator as a sublist of `pref ++ l` whenever the
accumulator is a sublist of `pref`. -/
theorem dedupFoldl_sublist (l : List String) :
    ∀ acc pref : List String, acc.Sublist pref →
      (l.foldl (fun list item => if list.contains item then list else list ++ [item]) acc).Sublist
        (pref ++ l) := by
  induction l with
  | nil => intro acc pref h; simpa using h
  | cons x xs ih =>
    intro acc pref h
    simp only [List.foldl_cons]
    have hx : (pref ++ [x]) ++ xs = pref ++ x :: xs := by simp
    by_cases hc : acc.contains x = true
    · rw [if_pos hc]
      have := ih acc (pref ++ [x]) (h.trans (List.sublist_append_left pref [x]))
      rwa [hx] at this
    · rw [if_neg hc]
      have := ih (acc ++ [x]) (pref ++ [x]) (h.append (List.Sublist.refl [x]))
      rwa [hx] at this

/-- `removeDuplicateStr` never repeats a string. -/
theorem removeDuplicateStr_nodup (l : List String) : (removeDuplicateStr l).Nodup :=
  dedupFoldl_nodup l [] List.nodup_nil

/-- `removeDuplicateStr` preserves the input order: the result is a sublist
of the input. -/
theorem removeDuplicateStr_sublist (l : List String) : (removeDuplicateStr l).Sublist l := by
  have h := dedupFoldl_sublist l [] [] (List.Sublist.refl [])
  rwa [List.nil_append] at h

/-! ### Claim theorems about the pattern matcher and the merge -/

/-- C3: patterns are evaluated strictly in list order and the first pattern
that matches determines the result, whatever follows it (`ps₂` is arbitrary,
so the remaining patterns cannot influence the outcome); concretely, with
the two claimed patterns the input `"foo/bar"` extracts
`{garden := "foo", project := "bar"}` from the second pattern and the input
`"foo"` extracts `{garden := "foo"}` with the other fields empty. -/
theorem c3_first_matching_pattern_wins (compile : String → Except String Regexp)
    (ps₁ ps₂ : List String) (p value : String) (r : Regexp) (ms : List String)
    (h₁ : ∀ q ∈ ps₁, ∃ rq, compile q = Except.ok rq ∧ rq.findStringSubmatch value = none)
    (h₂ : compile p = Except.ok r) (h₃ : r.findStringSubmatch value = some ms) :
    matchPatternLoop compile value (ps₁ ++ p :: ps₂)
        = Except.ok (buildPatternMatch r.subexpNames ms)
      ∧ MatchPattern goCompile
          ⟨[], ["^(?P<garden>[a-z]+)$", "^(?P<garden>[a-z]+)/(?P<project>[a-z]+)$"]⟩ "foo/bar"
          = Except.ok ⟨"foo", "bar", "", ""⟩
      ∧ MatchPattern goCompile
          ⟨[], ["^(?P<garden>[a-z]+)$", "^(?P<garden>[a-z]+)/(?P<project>[a-z]+)$"]⟩ "foo"
          = Except.ok ⟨"foo", "", "", ""⟩ := by
  refine ⟨?_, rfl, rfl⟩
  rw [matchPatternLoop_append_of_no_match compile value ps₁ _ h₁]
  simp [matchPatternLoop, h₂, h₃]

/-- C3 witness: the generic statement applied at the claimed pattern pair
and the input `"foo/bar"`, where the first pattern compiles but does not
match. -/
theorem c3_witness :
    matchPatternLoop goCompile "foo/bar"
        (["^(?P<garden>[a-z]+)$"] ++ "^(?P<garden>[a-z]+)/(?P<project>[a-z]+)$" :: [])
        = Except.ok (buildPatternMatch gardenProjectRe.subexpNames ["foo/bar", "foo", "bar"])
      ∧ MatchPattern goCompile
          ⟨[], ["^(?P<garden>[a-z]+)$", "^(?P<garden>[a-z]+)/(?P<project>[a-z]+)$"]⟩ "foo/bar"
          = Except.ok ⟨"foo", "bar", "", ""⟩
      ∧ MatchPattern goCompile
          ⟨[], ["^(?P<garden>[a-z]+)$", "^(?P<garden>[a-z]+)/(?P<project>[a-z]+)$"]⟩ "foo"
          = Except.ok ⟨"foo", "", "", ""⟩ :=
  c3_first_matching_pattern_wins goCompile ["^(?P<garden>[a-z]+)$"] []
    "^(?P<garden>[a-z]+)/(?P<project>[a-z]+)$" "foo/bar" gardenProjectRe
    ["foo/bar", "foo", "bar"]
    (fun q hq => by
      rw [List.mem_singleton] at hq
      subst hq
      exact ⟨gardenRe, rfl, rfl⟩)
    rfl rfl

/-- C4: a malformed pattern reached during in-order iteration (every earlier
pattern compiled and did not match) aborts the whole call with a compile
error naming the offending pattern, whatever patterns follow it; concretely,
with patterns `["(", "^(?P<garden>[a-z]+)$"]` and input `"foo"` the result is
the compile error for `"("` even though the later pattern alone would have
matched `"foo"`. -/
theorem c4_malformed_pattern_aborts (compile : String → Except String Regexp)
    (ps₁ ps₂ : List String) (badPattern value errMsg : String)
    (h₁ : ∀ q ∈ ps₁, ∃ rq, compile q = Except.ok rq ∧ rq.findStringSubmatch value = none)
    (h₂ : compile badPattern = Except.error errMsg) :
    matchPatternLoop compile value (ps₁ ++ badPattern :: ps₂)
        = Except.error (ConfigError.patternCompile badPattern)
      ∧ matchPatternLoop goCompile "foo" ["(", "^(?P<garden>[a-z]+)$"]
          = Except.error (ConfigError.patternCompile "(")
      ∧ matchPatternLoop goCompile "foo" ["^(?P<garden>[a-z]+)$"]
          = Except.ok ⟨"foo", "", "", ""⟩ := by
  refine ⟨?_, rfl, rfl⟩
  rw [matchPatternLoop_append_of_no_match compile value ps₁ _ h₁]
  simp [matchPatternLoop, h₂]

/-- C4 witness: the generic statement applied at the malformed pattern `"("`
followed by a pattern matching `"foo"`. -/
theorem c4_witness :
    matchPatternLoop goCompile "foo" ([] ++ "(" :: ["^(?P<garden>[a-z]+)$"])
        = Except.error (ConfigError.patternCompile "(")
      ∧ matchPatternLoop goCompile "foo" ["(", "^(?P<garden>[a-z]+)$"]
          = Except.error (ConfigError.patternCompile "(")
      ∧ matchPatternLoop goCompile "foo" ["^(?P<garden>[a-z]+)$"]
          = Except.ok ⟨"foo", "", "", ""⟩ :=
  c4_malformed_pattern_aborts goCompile [] ["^(?P<garden>[a-z]+)$"] "(" "foo"
    "error parsing regexp: missing closing ): `(`"
    (fun q hq => absurd hq (List.not_mem_nil q)) rfl

/-- C6: on every successful `AddGarden`, the resulting `MatchPatterns` is
the previous list with the parsed `global.matchPatterns` metadata appended
and the combination deduplicated (duplicate-free, order preserved as a
sublist of the combined list); in particular two successive calls whose
metadata both contribute `"p1\np2"` leave `MatchPatterns = ["p1", "p2"]`. -/
theorem c6_matchPatterns_merge (config : Config)
    (name kubeconfigFile contextName configFilename : String)
    (data : List (String × String)) (out : Config)
    (h : AddGarden config name kubeconfigFile contextName data configFilename = Except.ok out) :
    out.MatchPatterns = removeDuplicateStr (config.MatchPatterns
        ++ removeLastStrIfEmpty (splitOnChar newline (dataGet data "global.matchPatterns")))
      ∧ out.MatchPatterns.Nodup
      ∧ out.MatchPatterns.Sublist (config.MatchPatterns
          ++ removeLastStrIfEmpty (splitOnChar newline (dataGet data "global.matchPatterns")))
      ∧ c6TwoCalls.map Config.MatchPatterns = Except.ok ["p1", "p2"] := by
  unfold AddGarden at h
  by_cases hd : config.Gardens.any (fun g => g.Name == name) = true
  · rw [if_pos hd] at h
    exact absurd h (by simp)
  · rw [if_neg hd] at h
    obtain rfl : _ = out := Except.ok.inj h
    exact ⟨rfl, removeDuplicateStr_nodup _, removeDuplicateStr_sublist _, rfl⟩

/-- C6 witness: the second of the two claimed `AddGarden` calls, applied
concretely; its merged pattern list is `["p1", "p2"]`. -/
theorem c6_witness :
    (⟨[⟨"g1", "", "ctx", "kc", []⟩, ⟨"g2", "", "ctx", "kc", []⟩], ["p1", "p2"]⟩ : Config).MatchPatterns
        = removeDuplicateStr ((⟨[⟨"g1", "", "ctx", "kc", []⟩], ["p1", "p2"]⟩ : Config).MatchPatterns
            ++ removeLastStrIfEmpty (splitOnChar newline
                (dataGet [("global.matchPatterns", "p1\np2")] "global.matchPatterns")))
      ∧ (⟨[⟨"g1", "", "ctx", "kc", []⟩, ⟨"g2", "", "ctx", "kc", []⟩], ["p1", "p2"]⟩ : Config).MatchPatterns.Nodup
      ∧ (⟨[⟨"g1", "", "ctx", "kc", []⟩, ⟨"g2", "", "ctx", "kc", []⟩], ["p1", "p2"]⟩ : Config).MatchPatterns.Sublist
          ((⟨[⟨"g1", "", "ctx", "kc", []⟩], ["p1", "p2"]⟩ : Config).MatchPatterns
            ++ removeLastStrIfEmpty (splitOnChar newline
                (dataGet [("global.matchPatterns", "p1\np2")] "global.matchPatterns")))
      ∧ c6TwoCalls.map Config.MatchPatterns = Except.ok ["p1", "p2"] :=
  c6_matchPatterns_merge ⟨[⟨"g1", "", "ctx", "kc", []⟩], ["p1", "p2"]⟩ "g2" "kc" "ctx" "cfg"
    [("global.matchPatterns", "p1\np2")]
    ⟨[⟨"g1", "", "ctx", "kc", []⟩, ⟨"g2", "", "ctx", "kc", []⟩], ["p1", "p2"]⟩ rfl

/-- C7: for the winning pattern, only the four recognised named groups
populate fields: a recognised key with no pair in the name/capture pairing
leaves its field `""`; a recognised key whose single pair captured text `m`
stores exactly `m` (so a group that captured no text stores `""`, i.e. the
field stays empty); and the whole extraction is invariant under discarding
every pair whose name is not a recognised key, so unnamed groups and groups
with other names are ignored. -/
theorem c7_named_group_extraction (names ms : List String) :
    (∀ k ∈ patternKeys, (names.zip ms).filter (fun nm => nm.1 == k) = [] →
        getField (buildPatternMatch names ms) k = "")
      ∧ (∀ k ∈ patternKeys, ∀ captured : String,
          (names.zip ms).filter (fun nm => nm.1 == k) = [(k, captured)] →
          getField (buildPatternMatch names ms) k = captured)
      ∧ buildPatternMatch names ms
          = buildPatternFold ⟨"", "", "", ""⟩
              ((names.zip ms).filter (fun nm => patternKeys.contains nm.1)) := by
  refine ⟨?_, ?_, ?_⟩
  · intro k hk h
    have heq : getField (buildPatternMatch names ms) k
        = getField (buildPatternFold ⟨"", "", "", ""⟩ (names.zip ms)) k := rfl
    rw [heq, getField_buildPatternFold_of_filter_nil _ _ _ hk h]
    exact getField_default k hk
  · intro k hk captured h
    exact getField_buildPatternFold_of_filter_singleton (names.zip ms) _ k captured hk h
  · exact buildPatternFold_filter_recognized (names.zip ms) ⟨"", "", "", ""⟩

/-- C8: the loop yields the no-match error exactly when every pattern in the
list compiles and none of them matches the input; in particular the empty
pattern list always yields the no-match error. -/
theorem c8_noMatch_iff (compile : String → Except String Regexp)
    (patterns : List String) (value : String) :
    (matchPatternLoop compile value patterns = Except.error ConfigError.noMatch ↔
        ∀ p ∈ patterns, ∃ r, compile p = Except.ok r ∧ r.findStringSubmatch value = none)
      ∧ matchPatternLoop compile value [] = Except.error ConfigError.noMatch := by
  refine ⟨?_, rfl⟩
  induction patterns with
  | nil => simp [matchPatternLoop]
  | cons p rest ih =>
    cases hc : compile p with
    | error e =>
      simp only [matchPatternLoop, hc]
      constructor
      · intro h
        simp at h
      · intro hall
        obtain ⟨r, hr, _⟩ := hall p (by simp)
        rw [hc] at hr
        exact absurd hr (by simp)
    | ok r =>
      cases hm : r.findStringSubmatch value with
      | none =>
        simp only [matchPatternLoop, hc, hm]
        rw [ih]
        constructor
        · intro hall q hq
          rcases List.mem_cons.mp hq with rfl | hq2
          · exact ⟨r, hc, hm⟩
          · exact hall q hq2
        · intro hall q hq
          exact hall q (List.mem_cons_of_mem _ hq)
      | some ms =>
        simp only [matchPatternLoop, hc, hm]
        constructor
        · intro h
          simp at h
        · intro hall
          obtain ⟨r2, hr2, hn2⟩ := hall p (by simp)
          rw [hc] at hr2
          obtain rfl : r = r2 := Except.ok.inj hr2
          rw [hm] at hn2
          exact absurd hn2 (by simp)

/-- C10: when the first pattern that matches has no recognised named capture
group, the loop still succeeds, returning the `PatternMatch` with all four
fields empty rather than a no-match error; concretely the pattern
`"^([a-z]+)$"` (one unnamed group) on input `"foo"` yields the all-empty
match. -/
theorem c10_unrecognized_groups_empty_match (compile : String → Except String Regexp)
    (ps₁ ps₂ : List String) (p value : String) (r : Regexp) (ms : List String)
    (h₁ : ∀ q ∈ ps₁, ∃ rq, compile q = Except.ok rq ∧ rq.findStringSubmatch value = none)
    (h₂ : compile p = Except.ok r) (h₃ : r.findStringSubmatch value = some ms)
    (h₄ : ∀ n ∈ r.subexpNames, ¬ n ∈ patternKeys) :
    matchPatternLoop compile value (ps₁ ++ p :: ps₂) = Except.ok ⟨"", "", "", ""⟩
      ∧ MatchPattern goCompile ⟨[], ["^([a-z]+)$"]⟩ "foo" = Except.ok ⟨"", "", "", ""⟩ := by
  refine ⟨?_, rfl⟩
  rw [matchPatternLoop_append_of_no_match compile value ps₁ _ h₁]
  simp only [matchPatternLoop, h₂, h₃]
  rw [buildPatternMatch_all_empty r.subexpNames ms h₄]

/-- C10 witness: the generic statement applied at the unnamed-group pattern
`"^([a-z]+)$"` and the input `"foo"`. -/
theorem c10_witness :
    matchPatternLoop goCompile "foo" ([] ++ "^([a-z]+)$" :: []) = Except.ok ⟨"", "", "", ""⟩
      ∧ MatchPattern goCompile ⟨[], ["^([a-z]+)$"]⟩ "foo" = Except.ok ⟨"", "", "", ""⟩ :=
  c10_unrecognized_groups_empty_match goCompile [] [] "^([a-z]+)$" "foo" unnamedWordRe
    ["foo", "foo"] (fun q hq => absurd hq (List.not_mem_nil q)) rfl rfl (by decide)

end GardenctlConfig
